import Mathlib

/-!
Shallow embedding of the LXD storage reconcilers from
src/plugins/modules/lxd_storage_pool.py and
src/plugins/modules/lxd_storage_volume.py.

Python dicts of string keys and string values are modelled as
insertion-ordered association lists, mirroring dict iteration order and
key update semantics. Optional module parameters and optional metadata
keys are modelled as Option values, so that the Python pattern of
dict.get returning None for a missing key is an explicit none.
-/

namespace LxdStorage

/-- A Python dict with string keys and string values, as an
insertion-ordered association list. -/
abbrev Dict := List (String × String)

/-- Lookup of a key in a dict, as Python d.get(k) for string values:
the value bound to the first occurrence of the key, none when absent. -/
def dget (d : Dict) (k : String) : Option String :=
  match d with
  | [] => none
  | (a, b) :: tl => if k = a then some b else dget tl k

/-- Python dict item assignment d[k] = v: an existing key (a dict holds
each key once) keeps its position and gets the new value, a new key is
appended at the end. -/
def dset (d : Dict) (k v : String) : Dict :=
  match d with
  | [] => [(k, v)]
  | (a, b) :: tl => if a = k then (k, v) :: tl else (a, b) :: dset tl k v

/-- The Python loop for k, v in upd.items(): base[k] = v, folding dset
over the update dict. -/
def dictUpdate (base upd : Dict) : Dict :=
  upd.foldl (fun acc kv => dset acc kv.1 kv.2) base

/-- A dict has no duplicate keys, as Python dicts always do. -/
def KeysNodup (d : Dict) : Prop := (d.map Prod.fst).Nodup

/-- The slice of a resource JSON document the two modules read and
write: the keys of CONFIG_PARAMS plus the location key of clustered
volumes. A field is none when the corresponding key is absent from the
Python dict. -/
structure Doc where
  config : Option Dict
  description : Option String
  driver : Option String
  location : Option String
  deriving DecidableEq, Repr

/-- The empty Python dict as a Doc. -/
def emptyDoc : Doc :=
  { config := none, description := none, driver := none, location := none }

/-! ### Diff engine: _needs_to_change_config and friends

The bodies of _needs_to_change_config are identical in
lxd_storage_pool.py (lines 317-332) and lxd_storage_volume.py
(lines 371-392), so both modules share the per-key helpers below.
-/

/-- Branch of _needs_to_change_config for the config sub-dict: with the
desired config key absent the answer is False; otherwise old_config is
dict(old_configs or empty) and the loop returns True on the first
desired entry that is absent from old_config or bound to a different
value. -/
def needsToChangeConfigMap (desired old : Option Dict) : Bool :=
  match desired with
  | none => false
  | some dc =>
    let oldc := old.getD []
    dc.any (fun kv =>
      match dget oldc kv.1 with
      | none => true
      | some v => decide (v ≠ kv.2))

/-- Branch of _needs_to_change_config for a scalar key such as
description: with the desired key absent the answer is False; otherwise
the Python comparison desired != old_configs is true when the observed
value is absent (None) or different. -/
def needsToChangeScalar (desired old : Option String) : Bool :=
  match desired with
  | none => false
  | some d => decide (old ≠ some d)

/-- lxd_storage_pool.py lines 334-341, _needs_to_apply_configs: the loop
over CONFIG_PARAMS = [config, description, driver] with the driver entry
skipped because the driver cannot be changed after creation. -/
def pool_needs_to_apply_configs (desired oldMeta : Doc) : Bool :=
  needsToChangeConfigMap desired.config oldMeta.config ||
  needsToChangeScalar desired.description oldMeta.description

/-- lxd_storage_volume.py lines 388-392, _needs_to_apply_configs: the
loop over CONFIG_PARAMS = [config, description]. -/
def volume_needs_to_apply_configs (desired oldMeta : Doc) : Bool :=
  needsToChangeConfigMap desired.config oldMeta.config ||
  needsToChangeScalar desired.description oldMeta.description

/-- lxd_storage_volume.py lines 343-356, _needs_to_migrate_volume: False
when the target parameter is unset or empty (Python falsy), False when
the observed metadata carries no truthy location, True exactly when the
truthy location differs from the target. -/
def volume_needs_to_migrate (target : Option String) (oldMeta : Doc) : Bool :=
  match target with
  | none => false
  | some t =>
    if t = "" then false
    else
      match oldMeta.location with
      | none => false
      | some loc => if loc = "" then false else decide (loc ≠ t)

/-! ### Update bodies built by _apply_storage_pool_configs and
_apply_storage_volume_configs -/

/-- Body entry for the config key: the body first receives the observed
config when that key is present in the old metadata, and when
_needs_to_change_config holds the desired entries are then assigned over
body.get(config, empty) one by one. -/
def mergeConfigMap (desired old : Option Dict) : Option Dict :=
  if needsToChangeConfigMap desired old then
    some (dictUpdate (old.getD []) (desired.getD []))
  else old

/-- Body entry for a scalar key: the observed value when present and
unchanged, overwritten by the desired value when a change is needed. -/
def mergeScalar (desired old : Option String) : Option String :=
  if needsToChangeScalar desired old then desired else old

/-- lxd_storage_pool.py lines 343-364, the body_json built by
_apply_storage_pool_configs: config and description merged, and the
driver copied from the old metadata when present, never taken from the
desired config. -/
def pool_apply_body (desired oldMeta : Doc) : Doc :=
  { config := mergeConfigMap desired.config oldMeta.config
    description := mergeScalar desired.description oldMeta.description
    driver := oldMeta.driver
    location := none }

/-- lxd_storage_volume.py lines 394-408, the body_json built by
_apply_storage_volume_configs: config and description merged; the loop
covers only CONFIG_PARAMS = [config, description]. -/
def volume_apply_body (desired oldMeta : Doc) : Doc :=
  { config := mergeConfigMap desired.config oldMeta.config
    description := mergeScalar desired.description oldMeta.description
    driver := none
    location := none }

/-! ### URL construction

The pool module builds item paths with urllib.parse.quote(name, safe
empty), the volume module interpolates pool, type and name directly into
an f-string. Query strings come from urllib.parse.urlencode. The models
of quote, quote_plus and urlencode below follow the CPython
implementations for str input: UTF-8 encode, keep the bytes of
ALWAYS_SAFE (ASCII letters, digits, underscore, dot, dash, tilde), and
percent-encode every other byte as a percent sign and two uppercase hex
digits. -/

/-- The UTF-8 bytes of a character, as natural numbers below 256. -/
def utf8Bytes (c : Char) : List Nat :=
  let n := c.toNat
  if n < 128 then [n]
  else if n < 2048 then [192 + n / 64, 128 + n % 64]
  else if n < 65536 then [224 + n / 4096, 128 + (n / 64) % 64, 128 + n % 64]
  else [240 + n / 262144, 128 + (n / 4096) % 64, 128 + (n / 64) % 64, 128 + n % 64]

/-- The sixteen uppercase hexadecimal digit characters. -/
def hexChars : List Char :=
  ['0', '1', '2', '3', '4', '5', '6', '7', '8', '9', 'A', 'B', 'C', 'D', 'E', 'F']

/-- The uppercase hexadecimal digit for a value below sixteen. -/
def hexDigit (n : Nat) : Char := hexChars.getD n '0'

/-- Membership of a character in urllib ALWAYS_SAFE restricted to the
empty safe argument: ASCII letters, digits, underscore, dot, dash,
tilde. -/
def isAlwaysSafe (c : Char) : Bool :=
  c.isAlpha || c.isDigit || c == '_' || c == '.' || c == '-' || c == '~'

/-- Percent-encoding of one character: safe characters pass through,
every other character contributes a percent escape per UTF-8 byte. -/
def quoteChar (c : Char) : List Char :=
  if isAlwaysSafe c then [c]
  else (utf8Bytes c).flatMap (fun b => ['%', hexDigit (b / 16), hexDigit (b % 16)])

/-- urllib.parse.quote with the empty safe argument. -/
def quote (s : String) : String := ⟨s.data.flatMap quoteChar⟩

/-- Percent-encoding of one character under quote_plus: a space becomes
a plus sign, everything else is as in quote. -/
def quotePlusChar (c : Char) : List Char :=
  if c = ' ' then ['+'] else quoteChar c

/-- urllib.parse.quote_plus with no safe characters, as used by
urlencode on keys and values. -/
def quotePlus (s : String) : String := ⟨s.data.flatMap quotePlusChar⟩

/-- urllib.parse.urlencode over an insertion-ordered dict: key equals
value pairs joined with ampersands, keys and values quoted by
quote_plus. -/
def urlencodeDict (ps : Dict) : String :=
  String.intercalate "&" (ps.map (fun kv => quotePlus kv.1 ++ "=" ++ quotePlus kv.2))

/-- The shared endpoint constant of lxd_storage_pool.py line 194. -/
def LXD_API_STORAGE_POOLS_ENDPOINT : String := "/1.0/storage-pools"

/-- Query-string fragment appended for a truthy project parameter, as in
the repeated Python pattern if self.project: url = url + urlencoded
project. -/
def withProjectQuery (url : String) (project : Option String) : String :=
  match project with
  | none => url
  | some p => if p = "" then url else url ++ "?" ++ urlencodeDict [("project", p)]

/-- Optional target and project create parameters in insertion order
target first, each included only when truthy, as built by
_create_storage_pool and _create_storage_volume. -/
def urlParams (target project : Option String) : Dict :=
  (match target with
   | none => []
   | some t => if t = "" then [] else [("target", t)]) ++
  (match project with
   | none => []
   | some p => if p = "" then [] else [("project", p)])

/-- lxd_storage_pool.py lines 276-279 and 310-312 and 366-368: the item
path of a pool, with the name quoted and the project as a query
parameter. -/
def pool_item_url (name : String) (project : Option String) : String :=
  withProjectQuery (LXD_API_STORAGE_POOLS_ENDPOINT ++ "/" ++ quote name) project

/-- lxd_storage_pool.py lines 288-296: the collection path used by pool
creation with optional target and project query parameters. -/
def pool_create_url (target project : Option String) : String :=
  let ps := urlParams target project
  if ps = [] then LXD_API_STORAGE_POOLS_ENDPOINT
  else LXD_API_STORAGE_POOLS_ENDPOINT ++ "?" ++ urlencodeDict ps

/-- lxd_storage_volume.py lines 300-303 and 336-338 and 411-413: the
item path of a volume; pool, volume type and name are interpolated into
the f-string with no quoting. -/
def volume_item_url (pool vtype name : String) (project : Option String) : String :=
  withProjectQuery
    ("/1.0/storage-pools/" ++ pool ++ "/volumes/" ++ vtype ++ "/" ++ name) project

/-- lxd_storage_volume.py lines 312-320: the collection path used by
volume creation with optional target and project query parameters. -/
def volume_collection_url (pool vtype : String) (target project : Option String) : String :=
  let base := "/1.0/storage-pools/" ++ pool ++ "/volumes/" ++ vtype
  let ps := urlParams target project
  if ps = [] then base else base ++ "?" ++ urlencodeDict ps

/-- lxd_storage_volume.py lines 358-364: the migration path, the item
path with a mandatory target query parameter and an optional project
parameter. -/
def volume_migrate_url (pool vtype name target : String) (project : Option String) : String :=
  let ps := ("target", target) ::
    (match project with
     | none => []
     | some p => if p = "" then [] else [("project", p)])
  "/1.0/storage-pools/" ++ pool ++ "/volumes/" ++ vtype ++ "/" ++ name
    ++ "?" ++ urlencodeDict ps

/-! ### Action execution, check mode and the LXD client

Each mutating action function follows the same shape in both modules:
optionally record the update body in the diff, issue one HTTP call
unless check mode is on, and append the action tag to the action log.
A raised LXDClientException aborts the run before the tag is appended.
The client is modelled as an oracle mapping a request to none on success
or to the exception message on failure. -/

/-- The JSON body of a mutating request, as built by the action
functions of the two modules. -/
inductive ReqBody
  /-- No body argument at all, as in the DELETE calls. -/
  | noBody
  /-- The empty dict body of the migration POST. -/
  | emptyBody
  /-- lxd_storage_pool.py lines 298-299: self.config copied plus the
  name key. -/
  | createPoolBody (cfg : Doc) (name : String)
  /-- lxd_storage_volume.py lines 322-329: config and description taken
  from self.config, plus name, type and content_type. -/
  | createVolumeBody (cfg : Doc) (name vtype ctype : String)
  /-- The merged body_json of an apply_configs PUT. -/
  | putBody (doc : Doc)
  deriving DecidableEq, Repr

/-- One HTTP request as handed to LXDClient.do. -/
structure HttpReq where
  method : String
  url : String
  body : ReqBody
  deriving DecidableEq, Repr

/-- One decided action: the request it issues outside check mode, the
tag appended to the action log, and the diff-after document recorded
just before the request when the action rewrites it. -/
structure Step where
  req : HttpReq
  tag : String
  diffUpd : Option Doc
  deriving DecidableEq, Repr

/-- Mutable run state: the action log self.actions, the mutating calls
actually issued on the wire, and the current diff after document. -/
structure ExecSt where
  actions : List String
  calls : List HttpReq
  diffAfter : Doc
  deriving DecidableEq, Repr

/-- Execution of the decided actions in order. In check mode the call is
skipped and the tag still appended; otherwise a client failure aborts
with the message and the state accumulated so far, the tag of the failed
action not appended. -/
def execSteps (checkMode : Bool) (oracle : HttpReq → Option String) :
    List Step → ExecSt → Except (String × ExecSt) ExecSt
  | [], st => .ok st
  | s :: rest, st =>
    let st1 : ExecSt := { st with diffAfter := s.diffUpd.getD st.diffAfter }
    if checkMode then
      execSteps checkMode oracle rest { st1 with actions := st1.actions ++ [s.tag] }
    else
      match oracle s.req with
      | none =>
        execSteps checkMode oracle rest
          { st1 with actions := st1.actions ++ [s.tag], calls := st1.calls ++ [s.req] }
      | some msg => .error (msg, st1)

/-- The diff-after document produced by a step list. -/
def stepsDiff (steps : List Step) (d : Doc) : Doc :=
  steps.foldl (fun acc s => s.diffUpd.getD acc) d

/-- The structured outcome shape shared by exit_json and fail_json in
both modules: changed flag, ordered action list, diff payload. -/
structure Report where
  changed : Bool
  actions : List String
  diffBefore : Doc
  diffAfter : Doc
  deriving DecidableEq, Repr

/-- The exit_json payload of a successful run. -/
structure OkResult where
  oldState : String
  report : Report
  deriving DecidableEq, Repr

/-- The fail_json payload of a run aborted by an LXDClientException:
the message plus the same report shape as a success. -/
structure FailResult where
  msg : String
  report : Report
  deriving DecidableEq, Repr

/-- How one reconciliation run ends. -/
inductive RunOutcome
  /-- module.exit_json with the full report. -/
  | ok (r : OkResult)
  /-- module.fail_json msg only, raised by a validation check before any
  mutating call. -/
  | failValidation (msg : String)
  /-- module.fail_json from an LXDClientException, carrying the report
  accumulated so far. -/
  | failClient (f : FailResult)
  deriving DecidableEq, Repr

/-- A whole run: its outcome together with the internal action log and
the mutating calls that were issued on the wire. -/
structure RunTrace where
  outcome : RunOutcome
  actions : List String
  calls : List HttpReq
  deriving DecidableEq, Repr

/-- Fetch result handed to the run: a transport error message, a 404
mapped to absent, or the metadata of a present resource. -/
abbrev Fetched := Except String (Option Doc)

/-- The _pool_json_to_module_state and _volume_json_to_module_state
mapping on a successful fetch. -/
def observedState (obs : Option Doc) : String :=
  match obs with
  | none => "absent"
  | some _ => "present"

/-- The trace of a run aborted by a failed fetch: both modules catch the
LXDClientException with the diff still at its initial empty value and an
empty action log. -/
def fetchFailTrace (msg : String) : RunTrace :=
  { outcome := .failClient
      { msg := msg
        report :=
          { changed := false, actions := [], diffBefore := emptyDoc
            diffAfter := emptyDoc } }
    actions := [], calls := [] }

/-- Assembly of the run trace from the fetch observation and the
execution result, shared verbatim by both run methods: exit_json carries
changed as non-emptiness of the action log, the old state label, the
action list and the diff; fail_json carries the same report plus the
exception message. -/
def finishRun (obs : Option Doc) (res : Except (String × ExecSt) ExecSt) : RunTrace :=
  let diffBefore := (obs.getD emptyDoc)
  match res with
  | .ok st =>
    { outcome := .ok
        { oldState := observedState obs
          report :=
            { changed := !st.actions.isEmpty, actions := st.actions
              diffBefore := diffBefore, diffAfter := st.diffAfter } }
      actions := st.actions, calls := st.calls }
  | .error (msg, st) =>
    { outcome := .failClient
        { msg := msg
          report :=
            { changed := !st.actions.isEmpty, actions := st.actions
              diffBefore := diffBefore, diffAfter := st.diffAfter } }
      actions := st.actions, calls := st.calls }

/-! ### The volume reconciler -/

/-- The create step of _create_storage_volume. -/
def volumeCreateStep (desired : Doc) (pool vtype ctype name : String)
    (project target : Option String) : Step :=
  { req :=
      { method := "POST"
        url := volume_collection_url pool vtype target project
        body := .createVolumeBody
          { config := desired.config, description := desired.description
            driver := none, location := none } name vtype ctype }
    tag := "create", diffUpd := none }

/-- The migrate step of _migrate_storage_volume: a POST to the item path
with the target query parameter and an empty body. -/
def volumeMigrateStep (pool vtype name : String) (project target : Option String) : Step :=
  { req :=
      { method := "POST"
        url := volume_migrate_url pool vtype name (target.getD "") project
        body := .emptyBody }
    tag := "migrate", diffUpd := none }

/-- The apply_configs step of _apply_storage_volume_configs: diff after
is set to the merged body just before the PUT. -/
def volumeApplyStep (desired oldMeta : Doc) (pool vtype name : String)
    (project : Option String) : Step :=
  { req :=
      { method := "PUT"
        url := volume_item_url pool vtype name project
        body := .putBody (volume_apply_body desired oldMeta) }
    tag := "apply_configs", diffUpd := some (volume_apply_body desired oldMeta) }

/-- The delete step of _delete_storage_volume. -/
def volumeDeleteStep (pool vtype name : String) (project : Option String) : Step :=
  { req :=
      { method := "DELETE"
        url := volume_item_url pool vtype name project
        body := .noBody }
    tag := "delete", diffUpd := none }

/-- lxd_storage_volume.py lines 418-431, _manage_state: create on
present over absent; otherwise migrate when needed then apply configs
when needed; delete on absent over present; nothing otherwise. -/
def volumeSteps (state oldState : String) (desired oldMeta : Doc)
    (pool vtype ctype name : String) (project target : Option String) : List Step :=
  if state = "present" then
    if oldState = "absent" then
      [volumeCreateStep desired pool vtype ctype name project target]
    else
      (if volume_needs_to_migrate target oldMeta then
        [volumeMigrateStep pool vtype name project target]
      else []) ++
      (if volume_needs_to_apply_configs desired oldMeta then
        [volumeApplyStep desired oldMeta pool vtype name project]
      else [])
  else if state = "absent" then
    if oldState = "present" then
      [volumeDeleteStep pool vtype name project]
    else []
  else []

/-- lxd_storage_volume.py lines 433-475, run: fetch already performed
and passed in as fetched; on success the diff before is the observed
metadata or empty, the diff after starts at self.config, the decided
actions are executed, and exit_json or fail_json is assembled. -/
def volumeRun (checkMode : Bool) (oracle : HttpReq → Option String)
    (state : String) (desired : Doc) (pool vtype ctype name : String)
    (project target : Option String) (fetched : Fetched) : RunTrace :=
  match fetched with
  | .error msg => fetchFailTrace msg
  | .ok obs =>
    let oldState := observedState obs
    let oldMeta := obs.getD emptyDoc
    let steps := volumeSteps state oldState desired oldMeta pool vtype ctype name project target
    finishRun obs
      (execSteps checkMode oracle steps
        { actions := [], calls := [], diffAfter := desired })

/-! ### The pool reconciler -/

/-- The create step of _create_storage_pool, reached only after the
driver validation passed. -/
def poolCreateStep (desired : Doc) (name : String)
    (project target : Option String) : Step :=
  { req :=
      { method := "POST"
        url := pool_create_url target project
        body := .createPoolBody desired name }
    tag := "create", diffUpd := none }

/-- The apply_configs step of _apply_storage_pool_configs. -/
def poolApplyStep (desired oldMeta : Doc) (name : String)
    (project : Option String) : Step :=
  { req :=
      { method := "PUT"
        url := pool_item_url name project
        body := .putBody (pool_apply_body desired oldMeta) }
    tag := "apply_configs", diffUpd := some (pool_apply_body desired oldMeta) }

/-- The delete step of _delete_storage_pool. -/
def poolDeleteStep (name : String) (project : Option String) : Step :=
  { req :=
      { method := "DELETE"
        url := pool_item_url name project
        body := .noBody }
    tag := "delete", diffUpd := none }

/-- lxd_storage_pool.py lines 373-382, _manage_state without the
create-path driver validation, which is handled in poolRun: create on
present over absent, apply configs when needed on present over present,
delete on absent over present, nothing otherwise. -/
def poolSteps (state oldState : String) (desired oldMeta : Doc)
    (name : String) (project target : Option String) : List Step :=
  if state = "present" then
    if oldState = "absent" then
      [poolCreateStep desired name project target]
    else
      if pool_needs_to_apply_configs desired oldMeta then
        [poolApplyStep desired oldMeta name project]
      else []
  else if state = "absent" then
    if oldState = "present" then
      [poolDeleteStep name project]
    else []
  else []

/-- The message of the fail_json call at lxd_storage_pool.py line 303. -/
def driverRequiredMsg : String := "driver is required when creating a storage pool"

/-- lxd_storage_pool.py lines 384-417, run: like volumeRun, except that
_create_storage_pool fails with a validation message before issuing its
POST when the desired config carries no driver (lines 301-303). -/
def poolRun (checkMode : Bool) (oracle : HttpReq → Option String)
    (state : String) (desired : Doc) (name : String)
    (project target : Option String) (fetched : Fetched) : RunTrace :=
  match fetched with
  | .error msg => fetchFailTrace msg
  | .ok obs =>
    let oldState := observedState obs
    let oldMeta := obs.getD emptyDoc
    if state = "present" ∧ oldState = "absent" ∧ desired.driver = none then
      { outcome := .failValidation driverRequiredMsg, actions := [], calls := [] }
    else
      let steps := poolSteps state oldState desired oldMeta name project target
      finishRun obs
        (execSteps checkMode oracle steps
          { actions := [], calls := [], diffAfter := desired })

/-! ### Spec-modelled migration guard

The unit tests of the volume module (test_lxd_storage_volume.py,
test_migrate_volume_fails_without_allow_migrate and neighbours) exercise
an allow_migrate module option whose implementation is not part of the
module source under src. The guard below is therefore modelled from the
spec rather than from module code. -/

/-- Modelled from the spec: the validation message of the migration
guard, naming both the current and the requested location; the unit
tests additionally require the advice to set allow_migrate=true. -/
def migrateGuardMsg (currentLoc requestedLoc : String) : String :=
  "Volume is located on cluster member " ++ currentLoc ++
    " but target " ++ requestedLoc ++
    " was requested. Set allow_migrate=true to allow migration."

/-- Modelled from the spec: the volume run extended with the
allow_migrate guard absent from src. Per spec section 4.3, when
migration is required and the caller disallows it, the run is a fatal
precondition failure naming both the current and requested location,
raised before any mutating call; otherwise the run proceeds exactly as
volumeRun. -/
def volumeRunGuard (allowMigrate checkMode : Bool)
    (oracle : HttpReq → Option String)
    (state : String) (desired : Doc) (pool vtype ctype name : String)
    (project target : Option String) (fetched : Fetched) : RunTrace :=
  match fetched with
  | .error msg => fetchFailTrace msg
  | .ok obs =>
    let oldState := observedState obs
    let oldMeta := obs.getD emptyDoc
    if state = "present" ∧ oldState = "present" ∧
        volume_needs_to_migrate target oldMeta = true ∧ allowMigrate = false then
      { outcome := .failValidation
          (migrateGuardMsg (oldMeta.location.getD "") (target.getD ""))
        actions := [], calls := [] }
    else
      let steps := volumeSteps state oldState desired oldMeta pool vtype ctype name project target
      finishRun obs
        (execSteps checkMode oracle steps
          { actions := [], calls := [], diffAfter := desired })

/-- The run trace of a converged successful run: exit_json with changed
false, an empty action log and no mutating calls. -/
def noActionTrace (oldState : String) (diffBefore diffAfter : Doc) : RunTrace :=
  { outcome := .ok
      { oldState := oldState
        report :=
          { changed := false, actions := [], diffBefore := diffBefore
            diffAfter := diffAfter } }
    actions := [], calls := [] }

/-! ### Concrete documents and clients used to instantiate theorems -/

/-- A desired config asking only for a 20GiB size. -/
def sizeDesired : Doc :=
  { config := some [("size", "20GiB")], description := none
    driver := none, location := none }

/-- An observed metadata document with a 10GiB size, an extra source
key, a driver and a cluster location. -/
def observedMeta : Doc :=
  { config := some [("size", "10GiB"), ("source", "/x")], description := none
    driver := some "dir", location := some "node1" }

/-- An observed metadata document that already matches sizeDesired. -/
def convergedMeta : Doc :=
  { config := some [("size", "20GiB"), ("source", "/x")], description := none
    driver := some "dir", location := some "node1" }

/-- A client on which every request succeeds. -/
def okClient : HttpReq → Option String := fun _ => none

/-- A client on which every PUT fails with a fixed message. -/
def putFailClient : HttpReq → Option String :=
  fun r => if r.method = "PUT" then some "etag mismatch" else none

/-! ### Lemmas about dict update -/

theorem dset_dget_self (d : Dict) (k v : String) :
    dget (dset d k v) k = some v := by
  induction d with
  | nil => simp [dset, dget]
  | cons hd tl ih =>
    obtain ⟨a, b⟩ := hd
    by_cases hk : a = k
    · simp [dset, dget, hk]
    · simp [dset, dget, hk, Ne.symm hk, ih]

theorem dset_dget_ne (d : Dict) (k v k2 : String) (hne : k2 ≠ k) :
    dget (dset d k v) k2 = dget d k2 := by
  induction d with
  | nil => simp [dset, dget, hne]
  | cons hd tl ih =>
    obtain ⟨a, b⟩ := hd
    by_cases hk : a = k
    · subst hk
      by_cases h2 : k2 = a
      · simp [h2] at hne
      · simp [dset, dget, h2, hne]
    · by_cases h2 : k2 = a
      · simp [dset, dget, hk, h2]
      · simp [dset, dget, hk, h2, ih]

theorem dget_eq_none_of_not_mem_keys (d : Dict) (k : String)
    (h : k ∉ d.map Prod.fst) : dget d k = none := by
  induction d with
  | nil => rfl
  | cons hd tl ih =>
    obtain ⟨a, b⟩ := hd
    simp only [List.map_cons, List.mem_cons, not_or] at h
    simp [dget, h.1, ih h.2]

theorem dictUpdate_dget_of_none (base upd : Dict) (k : String)
    (h : dget upd k = none) :
    dget (dictUpdate base upd) k = dget base k := by
  unfold dictUpdate
  induction upd generalizing base with
  | nil => rfl
  | cons hd tl ih =>
    obtain ⟨a, b⟩ := hd
    by_cases hk : k = a
    · simp [dget, hk] at h
    · simp only [dget, hk, if_false] at h
      rw [List.foldl_cons]
      rw [show (List.foldl (fun acc kv => dset acc kv.1 kv.2) (dset base a b) tl) =
            dictUpdate (dset base a b) tl from rfl]
      rw [show dget (dictUpdate (dset base a b) tl) k = dget (dset base a b) k from ih _ h]
      exact dset_dget_ne base a b k hk

theorem dictUpdate_dget_of_some (base upd : Dict) (k v : String)
    (hnd : KeysNodup upd) (h : dget upd k = some v) :
    dget (dictUpdate base upd) k = some v := by
  unfold dictUpdate
  induction upd generalizing base with
  | nil => simp [dget] at h
  | cons hd tl ih =>
    obtain ⟨a, b⟩ := hd
    unfold KeysNodup at hnd
    simp only [List.map_cons, List.nodup_cons] at hnd
    by_cases hk : k = a
    · have hv : v = b := by
        simp [dget, hk] at h
        exact h.symm
      have htl : dget tl k = none := by
        apply dget_eq_none_of_not_mem_keys
        rw [hk]
        exact hnd.1
      rw [List.foldl_cons]
      rw [show (List.foldl (fun acc kv => dset acc kv.1 kv.2) (dset base a b) tl) =
            dictUpdate (dset base a b) tl from rfl]
      rw [dictUpdate_dget_of_none _ _ _ htl, hk, hv]
      exact dset_dget_self base a b
    · simp only [dget, hk, if_false] at h
      rw [List.foldl_cons]
      exact ih (dset base a b) hnd.2 h

/-! ### Lemmas about execution -/

theorem execSteps_checkMode (oracle : HttpReq → Option String)
    (steps : List Step) (st : ExecSt) :
    execSteps true oracle steps st =
      .ok { actions := st.actions ++ steps.map (fun s => s.tag), calls := st.calls,
            diffAfter := stepsDiff steps st.diffAfter } := by
  induction steps generalizing st with
  | nil => simp [execSteps, stepsDiff]
  | cons s rest ih => simp [execSteps, ih, stepsDiff, List.foldl_cons]

theorem execSteps_allOk (oracle : HttpReq → Option String)
    (hok : ∀ r, oracle r = none) (steps : List Step) (st : ExecSt) :
    execSteps false oracle steps st =
      .ok { actions := st.actions ++ steps.map (fun s => s.tag),
            calls := st.calls ++ steps.map (fun s => s.req),
            diffAfter := stepsDiff steps st.diffAfter } := by
  induction steps generalizing st with
  | nil => simp [execSteps, stepsDiff]
  | cons s rest ih => simp [execSteps, hok, ih, stepsDiff, List.foldl_cons]

theorem execSteps_ok_inv (c : Bool) (oracle : HttpReq → Option String)
    (steps : List Step) (st st2 : ExecSt)
    (h : execSteps c oracle steps st = .ok st2) :
    st2.actions = st.actions ++ steps.map (fun s => s.tag) ∧
    (c = true → st2.calls = st.calls) ∧
    (c = false → st2.calls = st.calls ++ steps.map (fun s => s.req)) := by
  induction steps generalizing st with
  | nil =>
    simp [execSteps] at h
    simp [← h]
  | cons s rest ih =>
    cases c with
    | true =>
      simp only [execSteps, if_true] at h
      obtain ⟨h1, h2, h3⟩ := ih _ h
      refine ⟨?_, ?_, ?_⟩
      · simpa using h1
      · intro hc
        simpa using h2 rfl
      · intro hc
        simp at hc
    | false =>
      simp only [execSteps, if_false, Bool.false_eq_true] at h
      cases horacle : oracle s.req with
      | none =>
        rw [horacle] at h
        obtain ⟨h1, h2, h3⟩ := ih _ h
        refine ⟨?_, ?_, ?_⟩
        · simpa using h1
        · intro hc
          simp at hc
        · intro hc
          simpa using h3 rfl
      | some m =>
        rw [horacle] at h
        cases h

theorem execSteps_error_inv (c : Bool) (oracle : HttpReq → Option String)
    (steps : List Step) (st : ExecSt) (msg : String) (st2 : ExecSt)
    (h : execSteps c oracle steps st = .error (msg, st2)) :
    c = false ∧
    ∃ pre s rest, steps = pre ++ s :: rest ∧
      st2.actions = st.actions ++ pre.map (fun x => x.tag) ∧
      st2.calls = st.calls ++ pre.map (fun x => x.req) ∧
      oracle s.req = some msg := by
  induction steps generalizing st with
  | nil => simp [execSteps] at h
  | cons s rest ih =>
    cases c with
    | true =>
      simp only [execSteps, if_true] at h
      obtain ⟨hc, _⟩ := ih _ h
      cases hc
    | false =>
      simp only [execSteps, if_false, Bool.false_eq_true] at h
      cases horacle : oracle s.req with
      | none =>
        rw [horacle] at h
        obtain ⟨_, pre, s2, rest2, hsplit, ha, hcl, hor⟩ := ih _ h
        refine ⟨rfl, s :: pre, s2, rest2, by simp [hsplit], by simpa using ha,
          by simpa using hcl, hor⟩
      | some m =>
        rw [horacle] at h
        simp only [Except.error.injEq, Prod.mk.injEq] at h
        refine ⟨rfl, [], s, rest, by simp, ?_, ?_, ?_⟩
        · rw [← h.2]
          simp
        · rw [← h.2]
          simp
        · rw [horacle, h.1]

/-! ### Lemmas about assembled run traces -/

theorem finishRun_calls_from_steps (obs : Option Doc) (c : Bool)
    (oracle : HttpReq → Option String) (steps : List Step) (d : Doc) :
    ∀ req ∈ (finishRun obs (execSteps c oracle steps
        { actions := [], calls := [], diffAfter := d })).calls,
      ∃ s ∈ steps, req = s.req := by
  intro req hreq
  cases hres : execSteps c oracle steps { actions := [], calls := [], diffAfter := d } with
  | ok st2 =>
    rw [hres] at hreq
    simp only [finishRun] at hreq
    obtain ⟨h1, h2, h3⟩ := execSteps_ok_inv _ _ _ _ _ hres
    cases c with
    | true =>
      rw [h2 rfl] at hreq
      simp at hreq
    | false =>
      rw [h3 rfl] at hreq
      simp only [List.nil_append, List.mem_map] at hreq
      obtain ⟨s, hs, hsr⟩ := hreq
      exact ⟨s, hs, hsr.symm⟩
  | error p =>
    obtain ⟨msg, st2⟩ := p
    rw [hres] at hreq
    simp only [finishRun] at hreq
    obtain ⟨-, pre, s, rest, hsplit, ha, hcl, -⟩ := execSteps_error_inv _ _ _ _ _ _ hres
    rw [hcl] at hreq
    simp only [List.nil_append, List.mem_map] at hreq
    obtain ⟨x, hx, hxr⟩ := hreq
    refine ⟨x, ?_, hxr.symm⟩
    rw [hsplit]
    exact List.mem_append_left _ hx

theorem finishRun_actions_isPre (obs : Option Doc) (c : Bool)
    (oracle : HttpReq → Option String) (steps : List Step) (d : Doc) :
    (finishRun obs (execSteps c oracle steps
        { actions := [], calls := [], diffAfter := d })).actions <+:
      steps.map (fun s => s.tag) := by
  cases hres : execSteps c oracle steps { actions := [], calls := [], diffAfter := d } with
  | ok st2 =>
    simp only [finishRun]
    obtain ⟨h1, -, -⟩ := execSteps_ok_inv _ _ _ _ _ hres
    rw [h1]
    simp
  | error p =>
    obtain ⟨msg, st2⟩ := p
    simp only [finishRun]
    obtain ⟨-, pre, s, rest, hsplit, ha, -, -⟩ := execSteps_error_inv _ _ _ _ _ _ hres
    rw [ha, hsplit]
    simp only [List.nil_append, List.map_append]
    exact ⟨(s :: rest).map (fun x => x.tag), by simp⟩

theorem isPre_single {α : Type} (l : List α) (a : α) (h : l <+: [a]) :
    l = [] ∨ l = [a] := by
  cases l with
  | nil => exact Or.inl rfl
  | cons x tl =>
    obtain ⟨t, ht⟩ := h
    simp only [List.cons_append, List.cons.injEq] at ht
    have : tl = [] := by
      cases tl with
      | nil => rfl
      | cons y tl2 => simp at ht
    subst this
    exact Or.inr (by simp [ht.1])

theorem isPre_pair {α : Type} (l : List α) (a b : α) (h : l <+: [a, b]) :
    l = [] ∨ l = [a] ∨ l = [a, b] := by
  cases l with
  | nil => exact Or.inl rfl
  | cons x tl =>
    obtain ⟨t, ht⟩ := h
    simp only [List.cons_append, List.cons.injEq] at ht
    obtain ⟨hx, ht2⟩ := ht
    subst hx
    cases tl with
    | nil => exact Or.inr (Or.inl rfl)
    | cons y tl2 =>
      simp only [List.cons_append, List.cons.injEq] at ht2
      obtain ⟨hy, ht3⟩ := ht2
      subst hy
      have : tl2 = [] := by
        cases tl2 with
        | nil => rfl
        | cons z tl3 => simp at ht3
      subst this
      exact Or.inr (Or.inr rfl)

theorem finishRun_fail_inv (obs : Option Doc) (oracle : HttpReq → Option String)
    (steps : List Step) (d : Doc) (f : FailResult)
    (hf : (finishRun obs (execSteps false oracle steps
        { actions := [], calls := [], diffAfter := d })).outcome = .failClient f) :
    f.report.actions = (finishRun obs (execSteps false oracle steps
        { actions := [], calls := [], diffAfter := d })).actions ∧
    f.report.changed = !f.report.actions.isEmpty ∧
    f.report.actions <+: steps.map (fun s => s.tag) ∧
    ∃ req, oracle req = some f.msg := by
  cases hres : execSteps false oracle steps { actions := [], calls := [], diffAfter := d } with
  | ok st2 =>
    rw [hres] at hf
    simp [finishRun] at hf
  | error p =>
    obtain ⟨msg, st2⟩ := p
    rw [hres] at hf
    simp only [finishRun, RunOutcome.failClient.injEq] at hf
    obtain ⟨-, pre, s, rest, hsplit, ha, -, hor⟩ := execSteps_error_inv _ _ _ _ _ _ hres
    subst hf
    refine ⟨?_, rfl, ?_, ⟨s.req, hor⟩⟩
    · simp [finishRun]
    · simp only [ha, hsplit, List.nil_append, List.map_append]
      exact ⟨(s :: rest).map (fun x => x.tag), rfl⟩

/-! ### Theorems for the claims -/

/-- C7: for every pool reconciliation with intent present, an absent
observation and no driver supplied, the run fails with the fatal
validation message, the action log stays empty, and no mutating network
call is issued. -/
theorem create_pool_requires_driver (checkMode : Bool)
    (oracle : HttpReq → Option String) (desired : Doc) (name : String)
    (project target : Option String) (hdriver : desired.driver = none) :
    poolRun checkMode oracle "present" desired name project target (.ok none) =
      { outcome := .failValidation driverRequiredMsg, actions := [], calls := [] } := by
  simp [poolRun, observedState, hdriver]

/-- Witness for C7 at the spec scenario: desired name p1, no driver,
observed absent. -/
theorem create_pool_requires_driver_witness :
    emptyDoc.driver = none ∧
    poolRun false okClient "present" emptyDoc "p1" none none (.ok none) =
      { outcome := .failValidation driverRequiredMsg, actions := [], calls := [] } :=
  ⟨rfl, create_pool_requires_driver false okClient emptyDoc "p1" none none rfl⟩

/-- C6: for every volume reconciliation against a present observation
where both a migration and a config change are detected, the action log
is exactly migrate followed by apply_configs. -/
theorem migrate_precedes_apply_configs (checkMode : Bool)
    (desired oldMeta : Doc) (pool vtype ctype name : String)
    (project target : Option String)
    (hm : volume_needs_to_migrate target oldMeta = true)
    (ha : volume_needs_to_apply_configs desired oldMeta = true) :
    (volumeRun checkMode okClient "present" desired pool vtype ctype name
        project target (.ok (some oldMeta))).actions = ["migrate", "apply_configs"] := by
  cases checkMode with
  | true =>
    simp [volumeRun, volumeSteps, observedState, hm, ha,
      execSteps_checkMode, finishRun, volumeMigrateStep, volumeApplyStep]
  | false =>
    simp [volumeRun, volumeSteps, observedState, hm, ha,
      execSteps_allOk okClient (fun _ => rfl), finishRun,
      volumeMigrateStep, volumeApplyStep]

/-- Witness for C6: a volume on node1 with target node2 and a size
change produces exactly migrate then apply_configs. -/
theorem migrate_precedes_apply_configs_witness :
    volume_needs_to_migrate (some "node2") observedMeta = true ∧
    volume_needs_to_apply_configs sizeDesired observedMeta = true ∧
    (volumeRun false okClient "present" sizeDesired "d" "custom" "filesystem" "v1"
        none (some "node2") (.ok (some observedMeta))).actions = ["migrate", "apply_configs"] :=
  ⟨by decide, by decide,
    migrate_precedes_apply_configs false sizeDesired observedMeta "d" "custom"
      "filesystem" "v1" none (some "node2") (by decide) (by decide)⟩

/-- C2: against a present, already converged observation (every desired
config entry equal in the observed config, description converged, and
location matching the target or not applicable), an intent-present run
of either module emits no actions and reports changed false; an
intent-absent run against an absent observation likewise. -/
theorem reconcile_idempotent (checkMode : Bool)
    (oracle : HttpReq → Option String)
    (desired oldMeta : Doc) (poolP vtype ctype vname pname : String)
    (project target : Option String)
    (hconfig : ∀ kv ∈ desired.config.getD [],
      dget (oldMeta.config.getD []) kv.1 = some kv.2)
    (hdesc : desired.description = none ∨ desired.description = oldMeta.description)
    (hloc : target = none ∨ target = some "" ∨ oldMeta.location = none ∨
      oldMeta.location = some "" ∨ oldMeta.location = target) :
    volumeRun checkMode oracle "present" desired poolP vtype ctype vname project target
        (.ok (some oldMeta)) = noActionTrace "present" oldMeta desired ∧
    poolRun checkMode oracle "present" desired pname project target (.ok (some oldMeta)) =
      noActionTrace "present" oldMeta desired ∧
    volumeRun checkMode oracle "absent" desired poolP vtype ctype vname project target
        (.ok none) = noActionTrace "absent" emptyDoc desired ∧
    poolRun checkMode oracle "absent" desired pname project target (.ok none) =
      noActionTrace "absent" emptyDoc desired := by
  have hc : needsToChangeConfigMap desired.config oldMeta.config = false := by
    cases hdc : desired.config with
    | none => simp [needsToChangeConfigMap]
    | some dc =>
      simp only [needsToChangeConfigMap]
      rw [List.any_eq_false]
      intro kv hkv
      have hk := hconfig kv (by simpa [hdc] using hkv)
      simp [hk]
  have hs : needsToChangeScalar desired.description oldMeta.description = false := by
    rcases hdesc with h | h
    · simp [needsToChangeScalar, h]
    · cases hdd : desired.description with
      | none => simp [needsToChangeScalar]
      | some d =>
        rw [hdd] at h
        simp [needsToChangeScalar, ← h]
  have hm : volume_needs_to_migrate target oldMeta = false := by
    rcases hloc with h | h | h | h | h
    · simp [volume_needs_to_migrate, h]
    · simp [volume_needs_to_migrate, h]
    · cases target with
      | none => simp [volume_needs_to_migrate]
      | some t =>
        by_cases ht : t = "" <;> simp [volume_needs_to_migrate, ht, h]
    · cases target with
      | none => simp [volume_needs_to_migrate]
      | some t =>
        by_cases ht : t = "" <;> simp [volume_needs_to_migrate, ht, h]
    · cases target with
      | none => simp [volume_needs_to_migrate]
      | some t =>
        by_cases ht : t = ""
        · simp [volume_needs_to_migrate, ht]
        · simp [volume_needs_to_migrate, ht, h]
  have hva : volume_needs_to_apply_configs desired oldMeta = false := by
    simp [volume_needs_to_apply_configs, hc, hs]
  have hpa : pool_needs_to_apply_configs desired oldMeta = false := by
    simp [pool_needs_to_apply_configs, hc, hs]
  refine ⟨?_, ?_, ?_, ?_⟩
  · simp [volumeRun, volumeSteps, observedState, hm, hva, execSteps, finishRun,
      noActionTrace]
  · simp [poolRun, poolSteps, observedState, hpa, execSteps, finishRun,
      noActionTrace]
  · simp [volumeRun, volumeSteps, observedState, execSteps, finishRun, noActionTrace]
  · simp [poolRun, poolSteps, observedState, execSteps, finishRun, noActionTrace]

/-- Witness for C2: a converged volume run on concrete input emits no
actions. -/
theorem reconcile_idempotent_witness :
    (∀ kv ∈ sizeDesired.config.getD [],
      dget (convergedMeta.config.getD []) kv.1 = some kv.2) ∧
    (sizeDesired.description = none ∨
      sizeDesired.description = convergedMeta.description) ∧
    convergedMeta.location = some "node1" ∧
    (volumeRun false okClient "present" sizeDesired "d" "custom" "filesystem" "v1"
        none (some "node1") (.ok (some convergedMeta))).actions = [] := by
  refine ⟨by decide, Or.inl rfl, rfl, ?_⟩
  have h := reconcile_idempotent false okClient sizeDesired convergedMeta "d" "custom"
    "filesystem" "v1" "p1" none (some "node1") (by decide) (Or.inl rfl)
    (Or.inr (Or.inr (Or.inr (Or.inr rfl))))
  rw [h.1]
  rfl

/-- C5: with check mode enabled the action log equals the log of a real
run from the same inputs whenever the real run has a working transport,
and a check-mode run issues no mutating network call whatever the
client does. -/
theorem check_mode_equivalence (oracle oracle2 : HttpReq → Option String)
    (hok : ∀ r, oracle r = none) (state : String) (desired : Doc)
    (poolP vtype ctype vname pname : String)
    (project target : Option String) (fetched : Fetched) :
    (volumeRun true oracle state desired poolP vtype ctype vname project target
        fetched).actions =
      (volumeRun false oracle state desired poolP vtype ctype vname project target
        fetched).actions ∧
    (poolRun true oracle state desired pname project target fetched).actions =
      (poolRun false oracle state desired pname project target fetched).actions ∧
    (volumeRun true oracle2 state desired poolP vtype ctype vname project target
        fetched).calls = [] ∧
    (poolRun true oracle2 state desired pname project target fetched).calls = [] := by
  cases fetched with
  | error msg => simp [volumeRun, poolRun, fetchFailTrace]
  | ok obs =>
    refine ⟨?_, ?_, ?_, ?_⟩
    · simp [volumeRun, execSteps_checkMode, execSteps_allOk oracle hok, finishRun]
    · by_cases hval : state = "present" ∧ observedState obs = "absent" ∧
        desired.driver = none
      · simp [poolRun, hval]
      · simp only [poolRun]
        rw [if_neg hval, if_neg hval]
        simp [execSteps_checkMode, execSteps_allOk oracle hok, finishRun]
    · simp [volumeRun, execSteps_checkMode, finishRun]
    · by_cases hval : state = "present" ∧ observedState obs = "absent" ∧
        desired.driver = none
      · simp [poolRun, hval]
      · simp only [poolRun]
        rw [if_neg hval]
        simp [execSteps_checkMode, finishRun]

/-- Witness for C5 at a migrating, reconfiguring volume scenario. -/
theorem check_mode_equivalence_witness :
    (∀ r, okClient r = none) ∧
    (volumeRun true okClient "present" sizeDesired "d" "custom" "filesystem" "v1"
        none (some "node2") (.ok (some observedMeta))).actions =
      (volumeRun false okClient "present" sizeDesired "d" "custom" "filesystem" "v1"
        none (some "node2") (.ok (some observedMeta))).actions ∧
    (volumeRun true putFailClient "present" sizeDesired "d" "custom" "filesystem" "v1"
        none (some "node2") (.ok (some observedMeta))).calls = [] := by
  have h := check_mode_equivalence okClient putFailClient (fun _ => rfl) "present"
    sizeDesired "d" "custom" "filesystem" "v1" "p1" none (some "node2")
    (.ok (some observedMeta))
  exact ⟨fun _ => rfl, h.1, h.2.2.1⟩

/-- C10: the action log of any single run of either module is one of
the six allowed shapes, the migrate-containing shapes occurring only
for volumes. -/
theorem action_log_shapes (checkMode : Bool) (oracle : HttpReq → Option String)
    (state : String) (desired : Doc) (poolP vtype ctype vname pname : String)
    (project target : Option String) (fetched : Fetched) :
    (volumeRun checkMode oracle state desired poolP vtype ctype vname project target
        fetched).actions ∈
      [[], ["create"], ["delete"], ["migrate"], ["apply_configs"],
        ["migrate", "apply_configs"]] ∧
    (poolRun checkMode oracle state desired pname project target fetched).actions ∈
      ([[], ["create"], ["delete"], ["apply_configs"]] : List (List String)) := by
  cases fetched with
  | error msg => simp [volumeRun, poolRun, fetchFailTrace]
  | ok obs =>
    constructor
    · have hvol : (volumeRun checkMode oracle state desired poolP vtype ctype vname
          project target (.ok obs)).actions <+:
          (volumeSteps state (observedState obs) desired (obs.getD emptyDoc)
            poolP vtype ctype vname project target).map (fun s => s.tag) :=
        finishRun_actions_isPre obs checkMode oracle _ desired
      by_cases h1 : state = "present"
      · subst h1
        by_cases h2 : observedState obs = "absent"
        · simp only [volumeSteps, h2, volumeCreateStep, List.map_cons, List.map_nil,
            if_pos rfl, if_true] at hvol
          rcases isPre_single _ _ hvol with h | h <;> rw [h] <;> simp
        · simp only [volumeSteps, if_pos rfl, h2, if_false] at hvol
          by_cases hm : volume_needs_to_migrate target (obs.getD emptyDoc)
          · by_cases ha : volume_needs_to_apply_configs desired (obs.getD emptyDoc)
            · simp [volumeSteps, hm, ha, volumeMigrateStep, volumeApplyStep] at hvol
              rcases isPre_pair _ _ _ hvol with h | h | h <;> rw [h] <;> simp
            · simp [volumeSteps, hm, ha, volumeMigrateStep] at hvol
              rcases isPre_single _ _ hvol with h | h <;> rw [h] <;> simp
          · by_cases ha : volume_needs_to_apply_configs desired (obs.getD emptyDoc)
            · simp [volumeSteps, hm, ha, volumeApplyStep] at hvol
              rcases isPre_single _ _ hvol with h | h <;> rw [h] <;> simp
            · simp [volumeSteps, hm, ha] at hvol
              rw [hvol]
              simp
      · by_cases h3 : state = "absent"
        · subst h3
          by_cases h2 : observedState obs = "present"
          · simp [volumeSteps, h2, volumeDeleteStep] at hvol
            rcases isPre_single _ _ hvol with h | h <;> rw [h] <;> simp
          · simp [volumeSteps, h2] at hvol
            rw [hvol]
            simp
        · simp [volumeSteps, h1, h3] at hvol
          rw [hvol]
          simp
    · by_cases hval : state = "present" ∧ observedState obs = "absent" ∧
        desired.driver = none
      · simp [poolRun, hval]
      · have hrun : poolRun checkMode oracle state desired pname project target
            (.ok obs) =
            finishRun obs (execSteps checkMode oracle
              (poolSteps state (observedState obs) desired (obs.getD emptyDoc)
                pname project target)
              { actions := [], calls := [], diffAfter := desired }) := by
          simp only [poolRun]
          rw [if_neg hval]
        have hpool : (poolRun checkMode oracle state desired pname project target
            (.ok obs)).actions <+:
            (poolSteps state (observedState obs) desired (obs.getD emptyDoc)
              pname project target).map (fun s => s.tag) := by
          rw [hrun]
          exact finishRun_actions_isPre obs checkMode oracle _ desired
        by_cases h1 : state = "present"
        · subst h1
          by_cases h2 : observedState obs = "absent"
          · simp [poolSteps, h2, poolCreateStep] at hpool
            rcases isPre_single _ _ hpool with h | h <;> rw [h] <;> simp
          · by_cases ha : pool_needs_to_apply_configs desired (obs.getD emptyDoc)
            · simp [poolSteps, h2, ha, poolApplyStep] at hpool
              rcases isPre_single _ _ hpool with h | h <;> rw [h] <;> simp
            · simp [poolSteps, h2, ha] at hpool
              rw [hpool]
              simp
        · by_cases h3 : state = "absent"
          · subst h3
            by_cases h2 : observedState obs = "present"
            · simp [poolSteps, h2, poolDeleteStep] at hpool
              rcases isPre_single _ _ hpool with h | h <;> rw [h] <;> simp
            · simp [poolSteps, h2] at hpool
              rw [hpool]
              simp
          · simp [poolSteps, h1, h3] at hpool
            rw [hpool]
            simp

/-- C4: for pools, the desired driver never influences the
apply_configs decision, and any PUT body a pool run submits carries the
observed driver unchanged, never the desired one. -/
theorem driver_write_once (checkMode : Bool) (oracle : HttpReq → Option String)
    (state : String) (desired oldMeta : Doc) (name : String)
    (project target : Option String) (d1 d2 : Option String) :
    pool_needs_to_apply_configs { desired with driver := d1 } oldMeta =
      pool_needs_to_apply_configs { desired with driver := d2 } oldMeta ∧
    (pool_apply_body desired oldMeta).driver = oldMeta.driver ∧
    (∀ req ∈ (poolRun checkMode oracle state desired name project target
        (.ok (some oldMeta))).calls,
      req.method = "PUT" →
      req.body = ReqBody.putBody (pool_apply_body desired oldMeta)) := by
  refine ⟨rfl, rfl, ?_⟩
  intro req hreq hput
  have hnv : ¬ (state = "present" ∧ observedState (some oldMeta) = "absent" ∧
      desired.driver = none) := by
    intro hval
    simp [observedState] at hval
  have hrun : poolRun checkMode oracle state desired name project target
      (.ok (some oldMeta)) =
      finishRun (some oldMeta) (execSteps checkMode oracle
        (poolSteps state (observedState (some oldMeta)) desired
          ((some oldMeta).getD emptyDoc) name project target)
        { actions := [], calls := [], diffAfter := desired }) := by
    simp only [poolRun]
    rw [if_neg hnv]
  rw [hrun] at hreq
  obtain ⟨s, hs, rfl⟩ :=
    finishRun_calls_from_steps (some oldMeta) checkMode oracle _ desired req hreq
  by_cases h1 : state = "present"
  · subst h1
    by_cases h2 : observedState (some oldMeta) = "absent"
    · simp [observedState] at h2
    · by_cases ha : pool_needs_to_apply_configs desired oldMeta
      · simp [poolSteps, h2, ha] at hs
        rw [hs]
        rfl
      · simp [poolSteps, h2, ha] at hs
  · by_cases h3 : state = "absent"
    · subst h3
      by_cases h2 : observedState (some oldMeta) = "present"
      · simp [poolSteps, h2, poolDeleteStep] at hs
        rw [hs] at hput
        simp at hput
      · simp [observedState] at h2
    · simp [poolSteps, h1, h3] at hs

/-- Witness for C4: the PUT submitted for a size change against a dir
pool keeps the observed driver. -/
theorem driver_write_once_witness :
    (pool_apply_body sizeDesired observedMeta).driver = some "dir" ∧
    ({ method := "PUT", url := pool_item_url "p1" none,
       body := ReqBody.putBody (pool_apply_body sizeDesired observedMeta) } : HttpReq) ∈
      (poolRun false okClient "present" sizeDesired "p1" none none
        (.ok (some observedMeta))).calls ∧
    ReqBody.putBody (pool_apply_body sizeDesired observedMeta) =
      ReqBody.putBody (pool_apply_body sizeDesired observedMeta) := by
  have h := driver_write_once false okClient "present" sizeDesired observedMeta
    "p1" none none none (some "zfs")
  refine ⟨h.2.1, ?_, ?_⟩
  · decide
  · exact h.2.2 { method := "PUT", url := pool_item_url "p1" none,
                  body := ReqBody.putBody (pool_apply_body sizeDesired observedMeta) }
      (by decide) rfl ▸ rfl

/-- C1: with the spec-modelled allow_migrate guard, a present volume
whose truthy location differs from the truthy requested target, run
with migration disallowed, fails with a validation message naming both
locations, with an empty action log and no mutating network call. -/
theorem migration_guard_blocks (checkMode : Bool)
    (oracle : HttpReq → Option String) (desired oldMeta : Doc)
    (poolP vtype ctype name : String) (project : Option String)
    (t loc : String) (ht : t ≠ "") (hl : oldMeta.location = some loc)
    (hle : loc ≠ "") (hne : loc ≠ t) :
    volumeRunGuard false checkMode oracle "present" desired poolP vtype ctype name
        project (some t) (.ok (some oldMeta)) =
      { outcome := .failValidation (migrateGuardMsg loc t),
        actions := [], calls := [] } ∧
    loc.data <:+: (migrateGuardMsg loc t).data ∧
    t.data <:+: (migrateGuardMsg loc t).data := by
  have hm : volume_needs_to_migrate (some t) oldMeta = true := by
    simp [volume_needs_to_migrate, ht, hl, hle, hne]
  refine ⟨?_, ?_, ?_⟩
  · simp [volumeRunGuard, observedState, hm, hl]
  · have hmsg : (migrateGuardMsg loc t).data =
        "Volume is located on cluster member ".data ++ loc.data ++
        (" but target ".data ++ t.data ++
          " was requested. Set allow_migrate=true to allow migration.".data) := by
      simp [migrateGuardMsg, String.data_append, List.append_assoc]
    rw [hmsg]
    exact List.infix_append _ _ _
  · have hmsg : (migrateGuardMsg loc t).data =
        ("Volume is located on cluster member ".data ++ loc.data ++
          " but target ".data) ++ t.data ++
        " was requested. Set allow_migrate=true to allow migration.".data := by
      simp [migrateGuardMsg, String.data_append, List.append_assoc]
    rw [hmsg]
    exact List.infix_append _ _ _

/-- Witness for C1 at the unit-test scenario: location node01, target
node02, migration disallowed. -/
theorem migration_guard_blocks_witness :
    observedMeta.location = some "node1" ∧
    volumeRunGuard false false okClient "present" sizeDesired "d" "custom"
        "filesystem" "v1" none (some "node2") (.ok (some observedMeta)) =
      { outcome := .failValidation (migrateGuardMsg "node1" "node2"),
        actions := [], calls := [] } :=
  ⟨rfl,
    (migration_guard_blocks false okClient sizeDesired observedMeta "d" "custom"
      "filesystem" "v1" none "node2" "node1" (by decide) rfl (by decide)
      (by decide)).1⟩

/-- C8: a run aborted by a client exception reports, in the same shape
as a success, the action log accumulated before the failure, changed as
non-emptiness of that log, and the diff payload, plus the error
message; the reported log is a prefix of the decided action list and
the message comes from the failed fetch or from the failing call. -/
theorem failure_report_auditable (oracle : HttpReq → Option String)
    (state : String) (desired : Doc) (poolP vtype ctype vname pname : String)
    (project target : Option String) (fetched : Fetched) :
    (∀ f, (volumeRun false oracle state desired poolP vtype ctype vname project
        target fetched).outcome = .failClient f →
      f.report.actions = (volumeRun false oracle state desired poolP vtype ctype
        vname project target fetched).actions ∧
      f.report.changed = !f.report.actions.isEmpty ∧
      f.report.actions <+: (volumeRun true oracle state desired poolP vtype ctype
        vname project target fetched).actions ∧
      (fetched = .error f.msg ∨ ∃ req, oracle req = some f.msg)) ∧
    (∀ f, (poolRun false oracle state desired pname project target
        fetched).outcome = .failClient f →
      f.report.actions = (poolRun false oracle state desired pname project target
        fetched).actions ∧
      f.report.changed = !f.report.actions.isEmpty ∧
      f.report.actions <+: (poolRun true oracle state desired pname project target
        fetched).actions ∧
      (fetched = .error f.msg ∨ ∃ req, oracle req = some f.msg)) := by
  cases fetched with
  | error msg =>
    constructor
    · intro f hf
      simp only [volumeRun, fetchFailTrace, RunOutcome.failClient.injEq] at hf
      subst hf
      exact ⟨rfl, rfl, List.nil_prefix, Or.inl rfl⟩
    · intro f hf
      simp only [poolRun, fetchFailTrace, RunOutcome.failClient.injEq] at hf
      subst hf
      exact ⟨rfl, rfl, List.nil_prefix, Or.inl rfl⟩
  | ok obs =>
    constructor
    · intro f hf
      have h := finishRun_fail_inv obs oracle
        (volumeSteps state (observedState obs) desired (obs.getD emptyDoc)
          poolP vtype ctype vname project target) desired f hf
      refine ⟨h.1, h.2.1, ?_, Or.inr h.2.2.2⟩
      have hcheck : (volumeRun true oracle state desired poolP vtype ctype vname
          project target (.ok obs)).actions =
          (volumeSteps state (observedState obs) desired (obs.getD emptyDoc)
            poolP vtype ctype vname project target).map (fun s => s.tag) := by
        show (finishRun obs (execSteps true oracle _
          { actions := [], calls := [], diffAfter := desired })).actions = _
        rw [execSteps_checkMode]
        simp [finishRun]
      rw [hcheck]
      exact h.2.2.1
    · intro f hf
      by_cases hval : state = "present" ∧ observedState obs = "absent" ∧
        desired.driver = none
      · simp [poolRun, hval] at hf
      · have hrun : ∀ c, poolRun c oracle state desired pname project target
            (.ok obs) =
            finishRun obs (execSteps c oracle
              (poolSteps state (observedState obs) desired (obs.getD emptyDoc)
                pname project target)
              { actions := [], calls := [], diffAfter := desired }) := by
          intro c
          simp only [poolRun]
          rw [if_neg hval]
        rw [hrun false] at hf
        have h := finishRun_fail_inv obs oracle
          (poolSteps state (observedState obs) desired (obs.getD emptyDoc)
            pname project target) desired f hf
        refine ⟨?_, h.2.1, ?_, Or.inr h.2.2.2⟩
        · rw [hrun false]
          exact h.1
        · rw [hrun true]
          have hcheck : (finishRun obs (execSteps true oracle
              (poolSteps state (observedState obs) desired (obs.getD emptyDoc)
                pname project target)
              { actions := [], calls := [], diffAfter := desired })).actions =
              (poolSteps state (observedState obs) desired (obs.getD emptyDoc)
                pname project target).map (fun s => s.tag) := by
            rw [execSteps_checkMode]
            simp [finishRun]
          rw [hcheck]
          exact h.2.2.1

/-- Witness for C8: a volume run whose PUT fails reports the migrate
action already performed, changed true and the failing message. -/
theorem failure_report_auditable_witness :
    ∃ f, (volumeRun false putFailClient "present" sizeDesired "d" "custom"
        "filesystem" "v1" none (some "node2")
        (.ok (some observedMeta))).outcome = .failClient f ∧
      f.report.actions = ["migrate"] ∧
      f.report.changed = true ∧
      f.msg = "etag mismatch" ∧
      (f.report.actions = (volumeRun false putFailClient "present" sizeDesired "d"
        "custom" "filesystem" "v1" none (some "node2")
        (.ok (some observedMeta))).actions ∧
       f.report.actions <+: (volumeRun true putFailClient "present" sizeDesired "d"
        "custom" "filesystem" "v1" none (some "node2")
        (.ok (some observedMeta))).actions) := by
  have houtcome : (volumeRun false putFailClient "present" sizeDesired "d" "custom"
      "filesystem" "v1" none (some "node2")
      (.ok (some observedMeta))).outcome = .failClient
      { msg := "etag mismatch",
        report := { changed := true, actions := ["migrate"],
                    diffBefore := observedMeta,
                    diffAfter := volume_apply_body sizeDesired observedMeta } } := by
    decide
  have h := (failure_report_auditable putFailClient "present" sizeDesired "d"
    "custom" "filesystem" "v1" "p1" none (some "node2")
    (.ok (some observedMeta))).1 _ houtcome
  exact ⟨_, houtcome, rfl, rfl, rfl, h.1, h.2.2.1⟩

/-- C3: a config change is detected exactly when some desired config
entry is absent from or differs in the observed config; the submitted
body overlays the full observed config with the desired entries,
keeping every observed-only key; both modules use this merge; and a
changed run emits exactly one apply_configs whose PUT carries the
merged body. -/
theorem config_merge_semantics (dc oc : Dict) (desired oldMeta : Doc)
    (poolP vtype ctype vname pname : String) (project target : Option String)
    (hnd : KeysNodup dc) (hdc : desired.config = some dc)
    (hoc : oldMeta.config = some oc) :
    (needsToChangeConfigMap desired.config oldMeta.config = true ↔
      ∃ kv ∈ dc, dget oc kv.1 ≠ some kv.2) ∧
    (needsToChangeConfigMap desired.config oldMeta.config = true →
      mergeConfigMap desired.config oldMeta.config = some (dictUpdate oc dc) ∧
      (∀ k v, dget dc k = some v → dget (dictUpdate oc dc) k = some v) ∧
      (∀ k v, dget dc k = none → dget oc k = some v →
        dget (dictUpdate oc dc) k = some v)) ∧
    (volume_apply_body desired oldMeta).config =
      mergeConfigMap desired.config oldMeta.config ∧
    (pool_apply_body desired oldMeta).config =
      mergeConfigMap desired.config oldMeta.config ∧
    (needsToChangeConfigMap desired.config oldMeta.config = true →
      (volumeRun false okClient "present" desired poolP vtype ctype vname project
          target (.ok (some oldMeta))).actions.count "apply_configs" = 1 ∧
      ({ method := "PUT", url := volume_item_url poolP vtype vname project,
         body := ReqBody.putBody (volume_apply_body desired oldMeta) } : HttpReq) ∈
        (volumeRun false okClient "present" desired poolP vtype ctype vname project
          target (.ok (some oldMeta))).calls ∧
      (poolRun false okClient "present" desired pname project target
          (.ok (some oldMeta))).actions.count "apply_configs" = 1) := by
  refine ⟨?_, ?_, rfl, rfl, ?_⟩
  · rw [hdc, hoc]
    simp only [needsToChangeConfigMap, Option.getD_some, List.any_eq_true]
    constructor
    · rintro ⟨kv, hkv, hf⟩
      refine ⟨kv, hkv, ?_⟩
      cases hg : dget oc kv.1 with
      | none => simp
      | some v =>
        rw [hg] at hf
        simp at hf
        simp [hf]
    · rintro ⟨kv, hkv, hf⟩
      refine ⟨kv, hkv, ?_⟩
      cases hg : dget oc kv.1 with
      | none => simp
      | some v =>
        rw [hg] at hf
        simp only [Ne, Option.some.injEq] at hf
        simp [hf]
  · intro hchange
    refine ⟨?_, ?_, ?_⟩
    · rw [hdc, hoc] at hchange ⊢
      simp [mergeConfigMap, hchange]
    · intro k v hk
      exact dictUpdate_dget_of_some oc dc k v hnd hk
    · intro k v hk hok
      rw [dictUpdate_dget_of_none oc dc k hk]
      exact hok
  · intro hchange
    have hva : volume_needs_to_apply_configs desired oldMeta = true := by
      simp [volume_needs_to_apply_configs, hchange]
    have hpa : pool_needs_to_apply_configs desired oldMeta = true := by
      simp [pool_needs_to_apply_configs, hchange]
    refine ⟨?_, ?_, ?_⟩
    · by_cases hm : volume_needs_to_migrate target oldMeta
      · simp [volumeRun, volumeSteps, observedState, hm, hva, finishRun,
          execSteps_allOk okClient (fun _ => rfl), volumeMigrateStep, volumeApplyStep,
          List.count_cons]
      · simp [volumeRun, volumeSteps, observedState, hm, hva, finishRun,
          execSteps_allOk okClient (fun _ => rfl), volumeApplyStep, List.count_cons]
    · by_cases hm : volume_needs_to_migrate target oldMeta
      · simp [volumeRun, volumeSteps, observedState, hm, hva, finishRun,
          execSteps_allOk okClient (fun _ => rfl), volumeMigrateStep, volumeApplyStep]
      · simp [volumeRun, volumeSteps, observedState, hm, hva, finishRun,
          execSteps_allOk okClient (fun _ => rfl), volumeApplyStep]
    · simp [poolRun, poolSteps, observedState, hpa, finishRun,
        execSteps_allOk okClient (fun _ => rfl), poolApplyStep, List.count_cons]

/-- Witness for C3 at the spec example: desired size 20GiB against
observed size 10GiB with source /x submits a config holding the new
size and the preserved source. -/
theorem config_merge_semantics_witness :
    KeysNodup [("size", "20GiB")] ∧
    sizeDesired.config = some [("size", "20GiB")] ∧
    observedMeta.config = some [("size", "10GiB"), ("source", "/x")] ∧
    needsToChangeConfigMap sizeDesired.config observedMeta.config = true ∧
    mergeConfigMap sizeDesired.config observedMeta.config =
      some (dictUpdate [("size", "10GiB"), ("source", "/x")] [("size", "20GiB")]) ∧
    dget (dictUpdate [("size", "10GiB"), ("source", "/x")] [("size", "20GiB")])
      "size" = some "20GiB" ∧
    dget (dictUpdate [("size", "10GiB"), ("source", "/x")] [("size", "20GiB")])
      "source" = some "/x" ∧
    (poolRun false okClient "present" sizeDesired "p1" none none
      (.ok (some observedMeta))).actions.count "apply_configs" = 1 := by
  have hkn : KeysNodup [("size", "20GiB")] := by
    unfold KeysNodup
    decide
  have h := config_merge_semantics [("size", "20GiB")]
    [("size", "10GiB"), ("source", "/x")] sizeDesired observedMeta
    "d" "custom" "filesystem" "v1" "p1" none none hkn rfl rfl
  have hchange : needsToChangeConfigMap sizeDesired.config observedMeta.config = true := by
    decide
  refine ⟨hkn, rfl, rfl, hchange, (h.2.1 hchange).1, ?_, ?_, (h.2.2.2.2 hchange).2.2⟩
  · exact (h.2.1 hchange).2.1 "size" "20GiB" (by decide)
  · exact (h.2.1 hchange).2.2 "source" "/x" (by decide) (by decide)

theorem hexDigit_mem_hexChars (n : Nat) : hexDigit n ∈ hexChars := by
  unfold hexDigit
  rcases Nat.lt_or_ge n hexChars.length with h | h
  · rw [List.getD_eq_getElem _ _ h]
    exact List.getElem_mem h
  · rw [List.getD_eq_default _ _ h]
    decide

theorem quote_no_reserved (name : String) :
    ∀ c ∈ (quote name).data, c ≠ '/' ∧ c ≠ '?' := by
  intro c hc
  simp only [quote, List.mem_flatMap] at hc
  obtain ⟨a, ha, hca⟩ := hc
  unfold quoteChar at hca
  by_cases hs : isAlwaysSafe a
  · rw [if_pos hs] at hca
    simp only [List.mem_singleton] at hca
    subst hca
    constructor
    · rintro rfl
      exact absurd hs (by decide)
    · rintro rfl
      exact absurd hs (by decide)
  · rw [if_neg hs] at hca
    simp only [List.mem_flatMap] at hca
    obtain ⟨b, hb, hcb⟩ := hca
    simp only [List.mem_cons, List.mem_singleton, List.not_mem_nil, or_false] at hcb
    have hmem : c = '%' ∨ c ∈ hexChars := by
      rcases hcb with h | h | h
      · exact Or.inl h
      · exact Or.inr (h ▸ hexDigit_mem_hexChars _)
      · exact Or.inr (h ▸ hexDigit_mem_hexChars _)
    rcases hmem with h | h
    · subst h
      exact ⟨by decide, by decide⟩
    · constructor
      · rintro rfl
        revert h
        decide
      · rintro rfl
        revert h
        decide

/-- C9 counterexample: the volume fetch path embeds the name verbatim,
so a name containing a slash is not escaped and collides with the path
of a different volume type and name. -/
theorem volume_path_not_escaped_cex :
    volume_item_url "p" "custom" "a/b" none =
      "/1.0/storage-pools/p/volumes/custom/a/b" ∧
    quote "a/b" = "a%2Fb" ∧
    volume_item_url "p" "custom" "a/b" none ≠
      "/1.0/storage-pools/p/volumes/custom/" ++ quote "a/b" ∧
    volume_item_url "p" "custom" "a/b" none =
      volume_item_url "p" "custom/a" "b" none := by
  refine ⟨rfl, ?_, ?_, rfl⟩
  · decide
  · decide

/-- C9 amended: pool request paths URL-escape the name, whose quoted
form contains no slash and no question mark, with the project only as a
query parameter; volume request paths interpolate pool, type and name
without escaping. -/
theorem path_escaping_amended (name : String) :
    (∀ c ∈ (quote name).data, c ≠ '/' ∧ c ≠ '?') ∧
    pool_item_url name none = LXD_API_STORAGE_POOLS_ENDPOINT ++ "/" ++ quote name ∧
    (∀ p, p ≠ "" → pool_item_url name (some p) =
      LXD_API_STORAGE_POOLS_ENDPOINT ++ "/" ++ quote name ++ "?" ++
        urlencodeDict [("project", p)]) ∧
    (∀ pool vtype, (volume_item_url pool vtype name none).data =
      ("/1.0/storage-pools/" ++ pool ++ "/volumes/" ++ vtype ++ "/").data ++
        name.data) := by
  refine ⟨quote_no_reserved name, rfl, ?_, ?_⟩
  · intro p hp
    simp [pool_item_url, withProjectQuery, hp]
  · intro pool vtype
    simp [volume_item_url, withProjectQuery, String.data_append]

/-- Witness for C9 amended at a name with a space and a slash. -/
theorem path_escaping_amended_witness :
    (∀ c ∈ (quote "a/b c").data, c ≠ '/' ∧ c ≠ '?') ∧
    pool_item_url "a/b c" (some "pr") =
      LXD_API_STORAGE_POOLS_ENDPOINT ++ "/" ++ quote "a/b c" ++ "?" ++
        urlencodeDict [("project", "pr")] := by
  have h := path_escaping_amended "a/b c"
  exact ⟨h.1, h.2.2.1 "pr" (by decide)⟩

end LxdStorage
